import Mathlib

/-!
Shallow embedding of the onaireplay-app coin ledger, retry wrapper, error
notification bus, episode-unlock gate, watchlist and watchlist-category
logic, together with proofs of the specified properties.

Numbers held in balances, costs and durations are JavaScript numbers used
as integers by the code; they are embedded as `Int`.  Remote calls are
embedded by threading explicit state (the local React state and the list
of persisted database writes) and a `remoteOk` flag standing for whether
the single remote round trip (after retries) succeeds.
-/

namespace OnAir

/-- Toast severities of the error notification bus
(`ErrorMessage.type` in `ErrorContext`). -/
inductive Severity where
  | error
  | warning
  | info
  | success
deriving DecidableEq, Repr

/-- A user-facing toast: the `message` / `type` part of an `ErrorMessage`. -/
structure Toast where
  message : String
  type : Severity
deriving DecidableEq, Repr

/-- The per-user balance row (`user_balances`): `{coins, bonus_coins}`. -/
structure UserBalance where
  coins : Int
  bonus_coins : Int
deriving DecidableEq, Repr

/-- Result of a coin-ledger operation in `useUserCoins`:
the returned boolean, the local `balance` state afterwards, the list of
persisted update calls `(coins, bonus_coins)` that took effect remotely,
and the toasts surfaced via `addError`. -/
structure CoinOpResult where
  ret : Bool
  balance : Option UserBalance
  updates : List (Int × Int)
  toasts : List Toast
deriving DecidableEq, Repr

/-- Embedding of `updateBalance` in `useUserCoins`: returns `false` when
`userId` is null; otherwise issues one remote update carrying both fields.
`remoteOk` stands for the remote call (after retries) succeeding; on
success the local balance (when present) is overwritten with the two new
fields and the call returns `true`; on failure an error-severity toast
with a retry action is surfaced and the call returns `false`. -/
def updateBalance (userId : Option String) (balance : Option UserBalance)
    (remoteOk : Bool) (newCoins newBonusCoins : Int) : CoinOpResult :=
  match userId with
  | none => ⟨false, balance, [], []⟩
  | some _ =>
    if remoteOk then
      let balance' :=
        match balance with
        | some b => some { b with coins := newCoins, bonus_coins := newBonusCoins }
        | none => none
      ⟨true, balance', [(newCoins, newBonusCoins)], []⟩
    else
      ⟨false, balance, [],
        [⟨"Failed to update your balance. Please try again.", Severity.error⟩]⟩

/-- Embedding of `addCoins` in `useUserCoins`: `false` when no balance is
loaded, otherwise an additive credit of both fields through
`updateBalance`. -/
def addCoins (userId : Option String) (balance : Option UserBalance)
    (remoteOk : Bool) (coinsToAdd bonusCoinsToAdd : Int) : CoinOpResult :=
  match balance with
  | none => ⟨false, none, [], []⟩
  | some b =>
    updateBalance userId (some b) remoteOk (b.coins + coinsToAdd)
      (b.bonus_coins + bonusCoinsToAdd)

/-- Embedding of `spendCoins` in `useUserCoins`: `false` when no balance
is loaded; a warning toast and `false` when `coins + bonus_coins <
coinsToSpend`; otherwise bonus coins are drained first, the remainder
comes out of `coins`, and both new fields go through `updateBalance`. -/
def spendCoins (userId : Option String) (balance : Option UserBalance)
    (remoteOk : Bool) (coinsToSpend : Int) : CoinOpResult :=
  match balance with
  | none => ⟨false, none, [], []⟩
  | some b =>
    let totalAvailable := b.coins + b.bonus_coins
    if totalAvailable < coinsToSpend then
      ⟨false, some b, [],
        [⟨"Insufficient coins. Please purchase more coins to continue.",
          Severity.warning⟩]⟩
    else
      let newBonusCoins := b.bonus_coins
      let newCoins := b.coins
      let remaining := coinsToSpend
      let step :=
        if remaining > 0 ∧ newBonusCoins > 0 then
          let bonusToSpend := min remaining newBonusCoins
          (newBonusCoins - bonusToSpend, remaining - bonusToSpend)
        else
          (newBonusCoins, remaining)
      let newBonusCoins := step.1
      let remaining := step.2
      let newCoins := if remaining > 0 then newCoins - remaining else newCoins
      updateBalance userId (some b) remoteOk newCoins newBonusCoins

/-- Embedding of `canAfford` in `useUserCoins`. -/
def canAfford (balance : Option UserBalance) (cost : Int) : Bool :=
  match balance with
  | none => false
  | some b => b.coins + b.bonus_coins ≥ cost

/-- Embedding of the `totalCoins` value returned by `useUserCoins`. -/
def totalCoins (balance : Option UserBalance) : Int :=
  match balance with
  | none => 0
  | some b => b.coins + b.bonus_coins

/-! ### Retry wrapper (`withRetry` in `utils/errorHandling.ts`)

The operation is embedded as a function from the 0-based invocation index
to `Except` (a thrown error or a returned value), and the wrapper returns
the overall result together with the list of delays slept between
attempts. -/

/-- One pass of the `for (attempt = 0; attempt <= maxRetries; ...)` loop
of `withRetry`, with `rem` the number of attempts still allowed after the
current one.  On the last allowed attempt a failure breaks out of the
loop and the last error is rethrown; otherwise the computed delay
(`delay * 2 ^ attempt` under exponential backoff, `delay` otherwise) is
slept and the next attempt runs. -/
def withRetryAux (op : Nat → Except String Int) (delay : Int) (backoff : Bool) :
    Nat → Nat → Except String Int × List Int
  | attempt, 0 =>
    match op attempt with
    | .ok v => (.ok v, [])
    | .error e => (.error e, [])
  | attempt, rem + 1 =>
    match op attempt with
    | .ok v => (.ok v, [])
    | .error _ =>
      let currentDelay := if backoff then delay * 2 ^ attempt else delay
      let next := withRetryAux op delay backoff (attempt + 1) rem
      (next.1, currentDelay :: next.2)

/-- Embedding of `withRetry`: up to `maxRetries + 1` invocations starting
at attempt 0. -/
def withRetry (op : Nat → Except String Int) (maxRetries : Nat) (delay : Int)
    (backoff : Bool) : Except String Int × List Int :=
  withRetryAux op delay backoff 0 maxRetries

/-- Whether an invocation returned normally (rather than throwing). -/
def exceptIsOk : Except String Int → Bool
  | .ok _ => true
  | .error _ => false

/-- A concrete operation that throws on its first two invocations and
then returns 7 (used to evaluate the retry wrapper on an input). -/
def wrOpEventuallyOk : Nat → Except String Int :=
  fun k => if k < 2 then .error "network down" else .ok 7

/-- A concrete operation that always throws, with a distinct error per
invocation (used to evaluate the retry wrapper on an input). -/
def wrOpAlwaysErr : Nat → Except String Int :=
  fun k => .error ("failure " ++ toString k)

/-! ### Error notification bus (`ErrorContext`) and message helpers -/

/-- An entry of the error notification bus.  The retry callback of the
source is embedded by its label only (callbacks are never invoked by the
bus itself). -/
structure ErrorMessage where
  id : String
  message : String
  type : Severity
  duration : Option Int
  retryLabel : Option String
deriving DecidableEq, Repr

/-- An `ErrorMessage` before the bus assigns it an id
(`Omit<ErrorMessage, 'id'>` in the source). -/
structure PreErrorMessage where
  message : String
  type : Severity
  duration : Option Int
  retryLabel : Option String
deriving DecidableEq, Repr

/-- Embedding of `createErrorMessage` in `utils/errorHandling.ts`:
duration is 3000 ms for success-type messages and 5000 ms otherwise. -/
def createErrorMessage (message : String) (type : Severity)
    (retryLabel : Option String) : PreErrorMessage :=
  { message := message
    type := type
    duration := some (if type = Severity.success then 3000 else 5000)
    retryLabel := retryLabel }

/-- Embedding of `removeError` in `ErrorContext`: drops every entry whose
id matches. -/
def removeError (errors : List ErrorMessage) (id : String) : List ErrorMessage :=
  errors.filter (fun e => e.id ≠ id)

/-- Embedding of `addError` in `ErrorContext`.  `id` is the generated
fresh id.  `error.duration || 5000` maps `none` and `0` to the 5000 ms
default.  Returns the new queue and the scheduled expiry timer
`(id, duration)` when the duration is positive. -/
def addError (errors : List ErrorMessage) (error : PreErrorMessage)
    (id : String) : List ErrorMessage × Option (String × Int) :=
  let duration : Int :=
    match error.duration with
    | none => 5000
    | some d => if d = 0 then 5000 else d
  let newError : ErrorMessage :=
    { id := id
      message := error.message
      type := error.type
      duration := some duration
      retryLabel := error.retryLabel }
  (errors ++ [newError], if duration > 0 then some (id, duration) else none)

/-! ### JavaScript values and `getErrorMessage` -/

/-- The JavaScript values `getErrorMessage` can receive: `Error`
instances, strings, numbers (used as integers by this code base),
booleans, `null`, `undefined`, and plain objects as association lists of
fields. -/
inductive JSValue where
  | vnull
  | vundefined
  | vbool (b : Bool)
  | vnum (n : Int)
  | vstr (s : String)
  | verror (name message : String)
  | vobj (fields : List (String × JSValue))

/-- Field lookup on a plain object (first binding wins, as in a JS
object literal read). -/
def lookupField : List (String × JSValue) → String → Option JSValue
  | [], _ => none
  | (k, v) :: rest, key => if k = key then some v else lookupField rest key

/-- JavaScript `String(x)` conversion on the embedded values. -/
def jsToString : JSValue → String
  | .vnull => "null"
  | .vundefined => "undefined"
  | .vbool b => if b then "true" else "false"
  | .vnum n => toString n
  | .vstr s => s
  | .verror name message => name ++ ": " ++ message
  | .vobj _ => "[object Object]"

/-- Embedding of `getErrorMessage` in `utils/errorHandling.ts`, with the
source's branches in order: `instanceof Error` returns the message;
`typeof === 'string'` returns the string itself; a truthy object with a
`message` field returns `String(message)` (only `vobj` is both truthy and
of object type once `Error` is handled: `null` is of object type but
falsy); everything else falls back to the constant. -/
def getErrorMessage (error : JSValue) : String :=
  match error with
  | .verror _ message => message
  | .vstr s => s
  | .vobj fields =>
    match lookupField fields "message" with
    | some v => jsToString v
    | none => "An unexpected error occurred"
  | _ => "An unexpected error occurred"

/-! ### Episode unlock gate (`useEpisodeUnlocks`) -/

/-- A row of `user_episode_unlocks`. -/
structure UnlockRecord where
  user_id : String
  movie_id : Int
deriving DecidableEq, Repr

/-- Whether the table holds a row for this `(user, movie)` pair. -/
def dbHasUnlock (db : List UnlockRecord) (userId : String) (movieId : Int) : Bool :=
  db.any (fun r => r.user_id == userId && r.movie_id == movieId)

/-- Number of rows for this `(user, movie)` pair. -/
def dbUnlockCount (db : List UnlockRecord) (userId : String) (movieId : Int) : Nat :=
  (db.filter (fun r => r.user_id == userId && r.movie_id == movieId)).length

/-- Remote insert into `user_episode_unlocks` under the table's
`UNIQUE(user_id, movie_id)` constraint: a duplicate pair is rejected with
the database's uniqueness-violation message. -/
def dbInsertUnlock (db : List UnlockRecord) (r : UnlockRecord) :
    Except String (List UnlockRecord) :=
  if dbHasUnlock db r.user_id r.movie_id then
    .error "duplicate key value violates unique constraint"
  else
    .ok (db ++ [r])

/-- Substring test on character lists (the embedding of JavaScript
`String.prototype.includes`). -/
def chListStartsWith : List Char → List Char → Bool
  | [], _ => true
  | _ :: _, [] => false
  | a :: as, b :: bs => a == b && chListStartsWith as bs

/-- Whether `pat` occurs inside the second list. -/
def chListIncludes (pat : List Char) : List Char → Bool
  | [] => chListStartsWith pat []
  | c :: rest => chListStartsWith pat (c :: rest) || chListIncludes pat rest

/-- `s.includes pat` on strings. -/
def strIncludes (s pat : String) : Bool :=
  chListIncludes pat.toList s.toList

/-- State of the unlock gate: the locally cached set of unlocked movie
ids (a `Set<number>` in the source, embedded as a duplicate-free list in
insertion order) and the `user_episode_unlocks` table. -/
structure UnlockState where
  unlockedEpisodes : List Int
  db : List UnlockRecord
deriving DecidableEq, Repr

/-- Result of `unlockEpisode`: the returned boolean, the state
afterwards, and the surfaced toasts. -/
structure UnlockResult where
  ret : Bool
  state : UnlockState
  toasts : List Toast
deriving DecidableEq, Repr

/-- Embedding of `unlockEpisode` in `useEpisodeUnlocks`: a warning and
`false` with no user; a no-op info success if the movie is already in the
cached set; otherwise a remote insert, where a thrown error whose message
contains "duplicate" or "unique" is treated as an idempotent success
(the movie is added to the cached set, `true` is returned), any other
error surfaces an error toast and returns `false`, and a plain success
adds the movie to the cached set and returns `true`. -/
def unlockEpisode (userId : Option String) (st : UnlockState) (movieId : Int)
    (unlockCost : Int) : UnlockResult :=
  match userId with
  | none =>
    ⟨false, st, [⟨"Please sign in to unlock episodes.", Severity.warning⟩]⟩
  | some uid =>
    if st.unlockedEpisodes.contains movieId then
      ⟨true, st, [⟨"This episode is already unlocked!", Severity.info⟩]⟩
    else
      match dbInsertUnlock st.db ⟨uid, movieId⟩ with
      | .ok db' =>
        ⟨true, ⟨st.unlockedEpisodes ++ [movieId], db'⟩,
          [⟨"Episode unlocked successfully! " ++ toString unlockCost ++
              " coins deducted.", Severity.success⟩]⟩
      | .error e =>
        let errorMessage := getErrorMessage (.vstr e)
        if strIncludes errorMessage "duplicate" ∨ strIncludes errorMessage "unique" then
          ⟨true, ⟨st.unlockedEpisodes ++ [movieId], st.db⟩,
            [⟨"Episode is already unlocked!", Severity.info⟩]⟩
        else
          ⟨false, st,
            [⟨"Failed to unlock episode. Please try again.", Severity.error⟩]⟩

/-- Embedding of `isEpisodeUnlocked`. -/
def isEpisodeUnlocked (st : UnlockState) (movieId : Int) : Bool :=
  st.unlockedEpisodes.contains movieId

/-! ### Watchlist (`useWatchlist`) -/

/-- A row of `user_watchlist`: owner, movie, optional category. -/
structure WatchlistRow where
  user_id : String
  movie_id : Int
  category_id : Option String
deriving DecidableEq, Repr

/-- Embedding of the successful path of `fetchWatchlist`: the query
returns the `user_watchlist` rows of the user joined with their movie;
rows whose joined movie is missing are filtered out
(`.filter(item => item.movie)`), and `watchlistIds` becomes the set of
the remaining movie ids.  `movies` is the list of ids present in the
`movies` table, which decides whether the join produced movie data. -/
def fetchWatchlistIds (userId : String) (rows : List WatchlistRow)
    (movies : List Int) : List Int :=
  ((rows.filter (fun r => r.user_id == userId)).filter
      (fun r => movies.contains r.movie_id)).map (fun r => r.movie_id)

/-- Embedding of `isInWatchlist`: membership in the cached id set. -/
def isInWatchlist (watchlistIds : List Int) (movieId : Int) : Bool :=
  watchlistIds.contains movieId

/-! ### Watchlist categories (`deleteCategory` in `AuthPage.tsx` plus the
schema of `user_watchlist_categories` / `user_watchlist.category_id`) -/

/-- A row of `user_watchlist_categories`. -/
structure CategoryRow where
  id : String
  user_id : String
  name : String
  color : String
deriving DecidableEq, Repr

/-- The database's `ON DELETE SET NULL` action on one watchlist item:
when the item references a category row being deleted (one matching
`id = categoryId` and `user_id = userId`), its `category_id` becomes
null; otherwise the item is untouched. -/
def nullifyCategoryRef (categories : List CategoryRow)
    (categoryId userId : String) (it : WatchlistRow) : WatchlistRow :=
  match it.category_id with
  | some cid =>
    if categories.any (fun c => (c.id == categoryId && c.user_id == userId)
        && c.id == cid) then
      { it with category_id := none }
    else
      it
  | none => it

/-- Embedding of `deleteCategory` together with the database's
declaration `category_id uuid REFERENCES user_watchlist_categories(id)
ON DELETE SET NULL`: the category rows matching `id = categoryId` and
`user_id = userId` are deleted, and every watchlist item goes through
`nullifyCategoryRef`. -/
def deleteCategory (categories : List CategoryRow) (items : List WatchlistRow)
    (categoryId userId : String) : List CategoryRow × List WatchlistRow :=
  let categories' := categories.filter
    (fun c => !(c.id == categoryId && c.user_id == userId))
  let items' := items.map (nullifyCategoryRef categories categoryId userId)
  (categories', items')

/-- The balance invariant of the data model: both fields nonnegative. -/
def balInv (b : UserBalance) : Prop :=
  0 ≤ b.coins ∧ 0 ≤ b.bonus_coins

/-! ## Theorems -/

/-- C1: for every balance with `coins = c ≥ 0` and `bonus_coins = b ≥ 0`
and every amount `0 ≤ a ≤ c + b`, `spendCoins a` (with the single
persistence update succeeding) returns `true`, leaves
`bonus_coins = b - min a b` and `coins = c - (a - min a b)`, persists
both fields in exactly one update call, and so reduces the total by
exactly `a`. -/
theorem spendCoins_sufficient_spec (u : String) (c b a : Int)
    (hc : 0 ≤ c) (hb : 0 ≤ b) (ha : 0 ≤ a) (hle : a ≤ c + b) :
    spendCoins (some u) (some ⟨c, b⟩) true a =
      ⟨true, some ⟨c - (a - min a b), b - min a b⟩,
        [(c - (a - min a b), b - min a b)], []⟩ ∧
    (c - (a - min a b)) + (b - min a b) = (c + b) - a := by
  constructor
  · simp only [spendCoins, updateBalance]
    split_ifs with h1 h2 h3 <;>
      simp_all [CoinOpResult.mk.injEq, UserBalance.mk.injEq, Prod.mk.injEq] <;>
      omega
  · omega

/-- C1 witness: from `{coins := 100, bonus_coins := 50}`, spending 120
succeeds and leaves `{coins := 30, bonus_coins := 0}`, persisted in one
update call. -/
theorem spendCoins_sufficient_spec_witness :
    spendCoins (some "u") (some ⟨100, 50⟩) true 120 =
      ⟨true, some ⟨100 - (120 - min 120 50), 50 - min 120 50⟩,
        [(100 - (120 - min 120 50), 50 - min 120 50)], []⟩ ∧
    ((100 : Int) - (120 - min 120 50)) + (50 - min 120 50) = (100 + 50) - 120 :=
  spendCoins_sufficient_spec "u" 100 50 120 (by norm_num) (by norm_num)
    (by norm_num) (by norm_num)

/-- C2: for every balance and every amount exceeding
`coins + bonus_coins`, `spendCoins` returns `false`, performs no update
(local balance and persisted row untouched), and surfaces the
insufficient-funds message as a warning-severity toast — every surfaced
toast has warning severity, none has error severity. -/
theorem spendCoins_insufficient_spec (u : Option String) (bal : UserBalance)
    (remoteOk : Bool) (a : Int) (h : bal.coins + bal.bonus_coins < a) :
    spendCoins u (some bal) remoteOk a =
      ⟨false, some bal, [],
        [⟨"Insufficient coins. Please purchase more coins to continue.",
          Severity.warning⟩]⟩ ∧
    ∀ t ∈ (spendCoins u (some bal) remoteOk a).toasts,
      t.type = Severity.warning ∧ t.type ≠ Severity.error := by
  have hcond : bal.coins + bal.bonus_coins < a := h
  constructor
  · simp only [spendCoins]
    rw [if_pos hcond]
  · intro t ht
    simp only [spendCoins] at ht
    rw [if_pos hcond] at ht
    simp only [List.mem_singleton] at ht
    subst ht
    exact ⟨rfl, by simp⟩

/-- C2 witness: spending 1000 from `{coins := 100, bonus_coins := 50}`
fails, changes nothing, and surfaces only a warning toast. -/
theorem spendCoins_insufficient_spec_witness :
    spendCoins (some "u") (some ⟨100, 50⟩) true 1000 =
      ⟨false, some ⟨100, 50⟩, [],
        [⟨"Insufficient coins. Please purchase more coins to continue.",
          Severity.warning⟩]⟩ ∧
    ∀ t ∈ (spendCoins (some "u") (some ⟨100, 50⟩) true 1000).toasts,
      t.type = Severity.warning ∧ t.type ≠ Severity.error :=
  spendCoins_insufficient_spec (some "u") ⟨100, 50⟩ true 1000 (by norm_num)

/-- C5: the coin-ledger operations preserve the balance invariant
(`coins ≥ 0` and `bonus_coins ≥ 0`): for every balance satisfying it,
`spendCoins` with a nonnegative amount and `addCoins` with nonnegative
credits leave a local balance and persisted update values that still
satisfy it, for any outcome of the remote call. -/
theorem coinOps_preserve_invariant (u : Option String) (b : UserBalance)
    (remoteOk : Bool) (a ca ba : Int) (hinv : balInv b)
    (ha : 0 ≤ a) (hca : 0 ≤ ca) (hba : 0 ≤ ba) :
    (∀ b', (spendCoins u (some b) remoteOk a).balance = some b' → balInv b') ∧
    (∀ p ∈ (spendCoins u (some b) remoteOk a).updates, 0 ≤ p.1 ∧ 0 ≤ p.2) ∧
    (∀ b', (addCoins u (some b) remoteOk ca ba).balance = some b' → balInv b') ∧
    (∀ p ∈ (addCoins u (some b) remoteOk ca ba).updates, 0 ≤ p.1 ∧ 0 ≤ p.2) := by
  obtain ⟨hc, hb⟩ := hinv
  obtain ⟨bc, bb⟩ := b
  simp only [balInv] at *
  refine ⟨?_, ?_, ?_, ?_⟩ <;>
  · simp only [spendCoins, addCoins, updateBalance]
    cases u <;>
      split_ifs <;>
        simp_all <;>
          omega

/-- C5 witness: the invariant is preserved at
`{coins := 100, bonus_coins := 50}` for a spend of 120 and a credit of
`(10, 5)`. -/
theorem coinOps_preserve_invariant_witness :
    (∀ b', (spendCoins (some "u") (some ⟨100, 50⟩) true 120).balance = some b' →
      balInv b') ∧
    (∀ p ∈ (spendCoins (some "u") (some ⟨100, 50⟩) true 120).updates,
      0 ≤ p.1 ∧ 0 ≤ p.2) ∧
    (∀ b', (addCoins (some "u") (some ⟨100, 50⟩) true 10 5).balance = some b' →
      balInv b') ∧
    (∀ p ∈ (addCoins (some "u") (some ⟨100, 50⟩) true 10 5).updates,
      0 ≤ p.1 ∧ 0 ≤ p.2) :=
  coinOps_preserve_invariant (some "u") ⟨100, 50⟩ true 120 10 5
    ⟨by norm_num, by norm_num⟩ (by norm_num) (by norm_num) (by norm_num)

/-- C9: with no balance loaded, the coin operations degrade safely:
`spendCoins` and `addCoins` return `false` with no remote update and no
local change, `canAfford` is `false` for every cost, and `totalCoins`
is 0, for any user id, remote outcome and amounts. -/
theorem coinOps_null_balance (u : Option String) (remoteOk : Bool)
    (a ca ba cost : Int) :
    spendCoins u none remoteOk a = ⟨false, none, [], []⟩ ∧
    addCoins u none remoteOk ca ba = ⟨false, none, [], []⟩ ∧
    canAfford none cost = false ∧
    totalCoins none = 0 :=
  ⟨rfl, rfl, rfl, rfl⟩

/-- If the operation throws on the first `m` attempts of the loop and
returns on the next one (still within the allowed attempts), the loop
returns that value. -/
theorem withRetryAux_eventually_ok (op : Nat → Except String Int) (d : Int)
    (bk : Bool) (v : Int) :
    ∀ m rem attempt, m ≤ rem →
      (∀ j, j < m → exceptIsOk (op (attempt + j)) = false) →
      op (attempt + m) = Except.ok v →
      (withRetryAux op d bk attempt rem).1 = Except.ok v := by
  intro m
  induction m with
  | zero =>
    intro rem attempt _ _ hok
    rw [Nat.add_zero] at hok
    cases rem <;> simp [withRetryAux, hok]
  | succ m ih =>
    intro rem attempt hle hfail hok
    obtain ⟨rem', rfl⟩ : ∃ r, rem = r + 1 := ⟨rem - 1, by omega⟩
    obtain ⟨e, he⟩ : ∃ e, op attempt = Except.error e := by
      have h0 := hfail 0 (by omega)
      rw [Nat.add_zero] at h0
      cases hop : op attempt with
      | ok w => rw [hop] at h0; simp [exceptIsOk] at h0
      | error e => exact ⟨e, rfl⟩
    simp only [withRetryAux, he]
    refine ih rem' (attempt + 1) (by omega) (fun j hj => ?_) ?_
    · have h := hfail (j + 1) (by omega)
      have harith : attempt + (j + 1) = attempt + 1 + j := by omega
      rwa [harith] at h
    · have harith : attempt + (m + 1) = attempt + 1 + m := by omega
      rwa [harith] at hok

/-- If the operation throws on every allowed attempt, the loop rethrows
the error of the final attempt, and under exponential backoff the delay
slept after the failed attempt at index `j` is `d * 2 ^ j`. -/
theorem withRetryAux_all_fail (op : Nat → Except String Int) (d : Int)
    (bk : Bool) :
    ∀ rem attempt,
      (∀ j, j ≤ rem → exceptIsOk (op (attempt + j)) = false) →
      (withRetryAux op d bk attempt rem).1 = op (attempt + rem) ∧
      (withRetryAux op d bk attempt rem).2 =
        (List.range rem).map (fun j => if bk then d * 2 ^ (attempt + j) else d) := by
  intro rem
  induction rem with
  | zero =>
    intro attempt h
    obtain ⟨e, he⟩ : ∃ e, op attempt = Except.error e := by
      have h0 := h 0 (by omega)
      rw [Nat.add_zero] at h0
      cases hop : op attempt with
      | ok w => rw [hop] at h0; simp [exceptIsOk] at h0
      | error e => exact ⟨e, rfl⟩
    rw [Nat.add_zero]
    simp [withRetryAux, he]
  | succ rem ih =>
    intro attempt h
    obtain ⟨e, he⟩ : ∃ e, op attempt = Except.error e := by
      have h0 := h 0 (by omega)
      rw [Nat.add_zero] at h0
      cases hop : op attempt with
      | ok w => rw [hop] at h0; simp [exceptIsOk] at h0
      | error e => exact ⟨e, rfl⟩
    obtain ⟨ih1, ih2⟩ := ih (attempt + 1) (fun j hj => by
      have hh := h (j + 1) (by omega)
      have harith : attempt + (j + 1) = attempt + 1 + j := by omega
      rwa [harith] at hh)
    simp only [withRetryAux, he]
    constructor
    · rw [ih1]
      have harith : attempt + 1 + rem = attempt + (rem + 1) := by omega
      rw [harith]
    · rw [ih2, List.range_succ_eq_map, List.map_cons, List.map_map]
      rw [Nat.add_zero]
      refine congrArg (fun l => (if bk then d * 2 ^ attempt else d) :: l) ?_
      refine List.map_congr_left (fun j _ => ?_)
      have harith : attempt + Nat.succ j = attempt + 1 + j := by omega
      simp [Function.comp, harith]

/-- C4: with retry cap `N`, an operation that throws on its first
`N - 1` invocations and succeeds on the next makes `withRetry` return
that success value; an operation that throws on all `N + 1` allowed
invocations makes `withRetry` rethrow the final invocation's error; and
with backoff enabled the successive sleeps for such an operation are
`d * 2 ^ 0, d * 2 ^ 1, ...`, i.e. the delay before the `(k+1)`-th
attempt is `d * 2 ^ (k - 1)`. -/
theorem withRetry_spec (op₁ op₂ : Nat → Except String Int) (N : Nat)
    (v : Int) (d : Int)
    (h₁fail : ∀ k, k < N - 1 → exceptIsOk (op₁ k) = false)
    (h₁ok : op₁ (N - 1) = Except.ok v)
    (h₂ : ∀ k, k < N + 1 → exceptIsOk (op₂ k) = false) :
    (withRetry op₁ N d true).1 = Except.ok v ∧
    (withRetry op₂ N d true).1 = op₂ N ∧
    (withRetry op₂ N d true).2 = (List.range N).map (fun k => d * 2 ^ k) := by
  refine ⟨?_, ?_, ?_⟩
  · refine withRetryAux_eventually_ok op₁ d true v (N - 1) N 0 (by omega)
      (fun j hj => by simpa using h₁fail j hj) (by simpa using h₁ok)
  · have h := (withRetryAux_all_fail op₂ d true N 0
      (fun j hj => by have := h₂ j (by omega); simpa using this)).1
    simpa using h
  · have h := (withRetryAux_all_fail op₂ d true N 0
      (fun j hj => by have := h₂ j (by omega); simpa using this)).2
    simp only [withRetry]
    rw [h]
    refine List.map_congr_left (fun j _ => by simp)

/-- C4 witness: with the default cap 3 and delay 1000 ms, an operation
failing twice then succeeding returns the success value 7; an operation
failing on all four attempts propagates the final error, with sleeps
1000, 2000, 4000 ms. -/
theorem withRetry_spec_witness :
    (withRetry wrOpEventuallyOk 3 1000 true).1 = Except.ok 7 ∧
    (withRetry wrOpAlwaysErr 3 1000 true).1 = wrOpAlwaysErr 3 ∧
    (withRetry wrOpAlwaysErr 3 1000 true).2 =
      (List.range 3).map (fun k => 1000 * 2 ^ k) :=
  withRetry_spec wrOpEventuallyOk wrOpAlwaysErr 3 7 1000
    (by decide) (by rfl) (by decide)

/-- A pair absent from the table has zero rows. -/
theorem dbUnlockCount_eq_zero_of_not_has (db : List UnlockRecord)
    (u : String) (m : Int) (h : dbHasUnlock db u m = false) :
    dbUnlockCount db u m = 0 := by
  simp only [dbHasUnlock, List.any_eq_false] at h
  simp only [dbUnlockCount, List.length_eq_zero, List.filter_eq_nil]
  intro r hr
  exact h r hr

/-- A pair present in the table has at least one row. -/
theorem dbUnlockCount_pos_of_has (db : List UnlockRecord)
    (u : String) (m : Int) (h : dbHasUnlock db u m = true) :
    1 ≤ dbUnlockCount db u m := by
  simp only [dbHasUnlock, List.any_eq_true] at h
  obtain ⟨r, hr, hpred⟩ := h
  exact List.length_pos_of_mem (List.mem_filter.mpr ⟨hr, hpred⟩)

/-- Appending the pair's own row increments its row count by one. -/
theorem dbUnlockCount_append_self (db : List UnlockRecord)
    (u : String) (m : Int) :
    dbUnlockCount (db ++ [⟨u, m⟩]) u m = dbUnlockCount db u m + 1 := by
  simp [dbUnlockCount, List.filter_append]

/-- C3: `unlockEpisode` is idempotent.  Under the cache-soundness
invariant (a cached id has a persisted row) and the table's uniqueness
invariant (at most one row per pair): a cached hit is a no-op success
with no insert; an insert rejected by the uniqueness constraint is
treated as a successful idempotent unlock, adding the id to the cache;
and two successive calls leave exactly one row for the pair, with the
second call returning `true` while touching neither the table nor any
coin balance (`unlockEpisode` performs no coin operation at all). -/
theorem unlockEpisode_idempotent (uid : String) (st : UnlockState)
    (movieId cost₁ cost₂ : Int)
    (hsound : st.unlockedEpisodes.contains movieId = true →
      dbHasUnlock st.db uid movieId = true)
    (huniq : dbUnlockCount st.db uid movieId ≤ 1) :
    (st.unlockedEpisodes.contains movieId = true →
      unlockEpisode (some uid) st movieId cost₁ =
        ⟨true, st, [⟨"This episode is already unlocked!", Severity.info⟩]⟩) ∧
    (st.unlockedEpisodes.contains movieId = false →
      dbHasUnlock st.db uid movieId = true →
      unlockEpisode (some uid) st movieId cost₁ =
        ⟨true, ⟨st.unlockedEpisodes ++ [movieId], st.db⟩,
          [⟨"Episode is already unlocked!", Severity.info⟩]⟩) ∧
    ((unlockEpisode (some uid)
        (unlockEpisode (some uid) st movieId cost₁).state movieId cost₂).ret
      = true ∧
     (unlockEpisode (some uid)
        (unlockEpisode (some uid) st movieId cost₁).state movieId cost₂).state.db
      = (unlockEpisode (some uid) st movieId cost₁).state.db ∧
     dbUnlockCount
       (unlockEpisode (some uid)
         (unlockEpisode (some uid) st movieId cost₁).state movieId cost₂).state.db
       uid movieId = 1) := by
  have hdupmsg :
      strIncludes "duplicate key value violates unique constraint" "duplicate"
        = true := by decide
  refine ⟨?_, ?_, ?_⟩
  · intro hmem
    have hmemP : movieId ∈ st.unlockedEpisodes := by simpa using hmem
    simp [unlockEpisode, hmemP]
  · intro hmem hdb
    have hmemP : movieId ∉ st.unlockedEpisodes := by simpa using hmem
    simp [unlockEpisode, hmemP, dbInsertUnlock, hdb, getErrorMessage, hdupmsg]
  · cases hmem : st.unlockedEpisodes.contains movieId with
    | true =>
      have hmemP : movieId ∈ st.unlockedEpisodes := by simpa using hmem
      have hdb := hsound hmem
      have hcount := dbUnlockCount_pos_of_has st.db uid movieId hdb
      have h1 : unlockEpisode (some uid) st movieId cost₁ =
          ⟨true, st, [⟨"This episode is already unlocked!", Severity.info⟩]⟩ := by
        simp [unlockEpisode, hmemP]
      have h2 : unlockEpisode (some uid) st movieId cost₂ =
          ⟨true, st, [⟨"This episode is already unlocked!", Severity.info⟩]⟩ := by
        simp [unlockEpisode, hmemP]
      rw [h1, h2]
      refine ⟨rfl, rfl, ?_⟩
      show dbUnlockCount st.db uid movieId = 1
      omega
    | false =>
      have hmemP : movieId ∉ st.unlockedEpisodes := by simpa using hmem
      have hmem2 : movieId ∈ st.unlockedEpisodes ++ [movieId] := by simp
      cases hdb : dbHasUnlock st.db uid movieId with
      | true =>
        have hcount := dbUnlockCount_pos_of_has st.db uid movieId hdb
        have h1 : unlockEpisode (some uid) st movieId cost₁ =
            ⟨true, ⟨st.unlockedEpisodes ++ [movieId], st.db⟩,
              [⟨"Episode is already unlocked!", Severity.info⟩]⟩ := by
          simp [unlockEpisode, hmemP, dbInsertUnlock, hdb, getErrorMessage, hdupmsg]
        have h2 : unlockEpisode (some uid)
            ⟨st.unlockedEpisodes ++ [movieId], st.db⟩ movieId cost₂ =
            ⟨true, ⟨st.unlockedEpisodes ++ [movieId], st.db⟩,
              [⟨"This episode is already unlocked!", Severity.info⟩]⟩ := by
          simp [unlockEpisode, hmem2]
        rw [h1, h2]
        refine ⟨rfl, rfl, ?_⟩
        show dbUnlockCount st.db uid movieId = 1
        omega
      | false =>
        have hcount := dbUnlockCount_eq_zero_of_not_has st.db uid movieId hdb
        have h1 : unlockEpisode (some uid) st movieId cost₁ =
            ⟨true, ⟨st.unlockedEpisodes ++ [movieId], st.db ++ [⟨uid, movieId⟩]⟩,
              [⟨"Episode unlocked successfully! " ++ toString cost₁ ++
                  " coins deducted.", Severity.success⟩]⟩ := by
          simp [unlockEpisode, hmemP, dbInsertUnlock, hdb]
        have h2 : unlockEpisode (some uid)
            ⟨st.unlockedEpisodes ++ [movieId], st.db ++ [⟨uid, movieId⟩]⟩
            movieId cost₂ =
            ⟨true, ⟨st.unlockedEpisodes ++ [movieId], st.db ++ [⟨uid, movieId⟩]⟩,
              [⟨"This episode is already unlocked!", Severity.info⟩]⟩ := by
          simp [unlockEpisode, hmem2]
        rw [h1, h2]
        refine ⟨rfl, rfl, ?_⟩
        show dbUnlockCount (st.db ++ [⟨uid, movieId⟩]) uid movieId = 1
        rw [dbUnlockCount_append_self]
        omega

/-- C3 witness: from an empty cache and empty table, unlocking movie 42
twice leaves exactly one row for the pair and the second call succeeds
without a new insert. -/
theorem unlockEpisode_idempotent_witness :
    (([] : List Int).contains 42 = true →
      unlockEpisode (some "u") ⟨[], []⟩ 42 30 =
        ⟨true, ⟨[], []⟩, [⟨"This episode is already unlocked!", Severity.info⟩]⟩) ∧
    (([] : List Int).contains 42 = false →
      dbHasUnlock [] "u" 42 = true →
      unlockEpisode (some "u") ⟨[], []⟩ 42 30 =
        ⟨true, ⟨[] ++ [42], []⟩,
          [⟨"Episode is already unlocked!", Severity.info⟩]⟩) ∧
    ((unlockEpisode (some "u")
        (unlockEpisode (some "u") ⟨[], []⟩ 42 30).state 42 30).ret = true ∧
     (unlockEpisode (some "u")
        (unlockEpisode (some "u") ⟨[], []⟩ 42 30).state 42 30).state.db
      = (unlockEpisode (some "u") ⟨[], []⟩ 42 30).state.db ∧
     dbUnlockCount
       (unlockEpisode (some "u")
         (unlockEpisode (some "u") ⟨[], []⟩ 42 30).state 42 30).state.db
       "u" 42 = 1) :=
  unlockEpisode_idempotent "u" ⟨[], []⟩ 42 30 30 (by decide) (by decide)

/-- C6: after a successful `fetchWatchlist`, `isInWatchlist id` is `true`
exactly when a `user_watchlist` row `(user, id)` is persisted for the
current user.  The hypothesis is the schema's referential integrity
(`movie_id integer REFERENCES movies(id)`): every row's movie id exists
in the `movies` table, so the join never loses a row. -/
theorem isInWatchlist_iff_persisted_row (u : String) (rows : List WatchlistRow)
    (movies : List Int)
    (href : ∀ r ∈ rows, movies.contains r.movie_id = true) (id : Int) :
    isInWatchlist (fetchWatchlistIds u rows movies) id = true ↔
      ∃ r ∈ rows, r.user_id = u ∧ r.movie_id = id := by
  simp [isInWatchlist, fetchWatchlistIds]
  constructor
  · rintro ⟨r, ⟨hr, _, hru⟩, hid⟩
    exact ⟨r, hr, hru, hid⟩
  · rintro ⟨r, hr, hru, hid⟩
    exact ⟨r, ⟨hr, by simpa using href r hr, hru⟩, hid⟩

/-- C6 witness: with rows for users "u" and "v", `isInWatchlist 1`
reflects exactly the persisted row `("u", 1)`. -/
theorem isInWatchlist_iff_persisted_row_witness :
    isInWatchlist (fetchWatchlistIds "u" [⟨"u", 1, none⟩, ⟨"v", 2, none⟩] [1, 2]) 1
        = true ↔
      ∃ r ∈ [(⟨"u", 1, none⟩ : WatchlistRow), ⟨"v", 2, none⟩],
        r.user_id = "u" ∧ r.movie_id = 1 :=
  isInWatchlist_iff_persisted_row "u" [⟨"u", 1, none⟩, ⟨"v", 2, none⟩] [1, 2]
    (by decide) 1

/-- C8: a notification appended by `addError` self-expires: with a fresh
id, `createErrorMessage` gives the entry a duration of 3000 ms for
success-type messages and 5000 ms for every other type, `addError`
schedules a removal timer carrying exactly that id and duration, and
firing the timer (`removeError` at that id) removes exactly the appended
entry, restoring the previous queue. -/
theorem addError_self_expires (errors : List ErrorMessage) (m : String)
    (t : Severity) (rl : Option String) (id : String)
    (hfresh : ∀ e ∈ errors, e.id ≠ id) :
    (createErrorMessage m t rl).duration =
      some (if t = Severity.success then 3000 else 5000) ∧
    (addError errors (createErrorMessage m t rl) id).2 =
      some (id, if t = Severity.success then 3000 else 5000) ∧
    removeError (addError errors (createErrorMessage m t rl) id).1 id = errors := by
  refine ⟨rfl, ?_, ?_⟩
  · cases t <;> simp [createErrorMessage, addError]
  · cases t <;>
    · simp only [createErrorMessage, addError, removeError, List.filter_append]
      simp only [List.filter_cons, List.filter_nil]
      norm_num
      exact fun e he => hfresh e he

/-- C8 witness: appending a success message with fresh id "b" to a
one-entry queue schedules its removal after 3000 ms, and firing the
timer restores the original queue. -/
theorem addError_self_expires_witness :
    (createErrorMessage "saved" Severity.success none).duration =
      some (if Severity.success = Severity.success then 3000 else 5000) ∧
    (addError [⟨"a", "old", Severity.error, some 5000, none⟩]
        (createErrorMessage "saved" Severity.success none) "b").2 =
      some ("b", if Severity.success = Severity.success then 3000 else 5000) ∧
    removeError (addError [⟨"a", "old", Severity.error, some 5000, none⟩]
        (createErrorMessage "saved" Severity.success none) "b").1 "b" =
      [⟨"a", "old", Severity.error, some 5000, none⟩] :=
  addError_self_expires [⟨"a", "old", Severity.error, some 5000, none⟩]
    "saved" Severity.success none "b" (by decide)

/-- C10: `getErrorMessage` is total and falls back to the constant
message: every input yields the `Error`'s message, the string itself,
the stringified `message` field of an object, or the constant
"An unexpected error occurred" — in particular `null`, `undefined`,
numbers, booleans and message-less objects all yield the constant. -/
theorem getErrorMessage_total (v : JSValue) :
    (∃ name msg, v = .verror name msg ∧ getErrorMessage v = msg) ∨
    (∃ s, v = .vstr s ∧ getErrorMessage v = s) ∨
    (∃ fields m, v = .vobj fields ∧ lookupField fields "message" = some m ∧
      getErrorMessage v = jsToString m) ∨
    getErrorMessage v = "An unexpected error occurred" := by
  cases v with
  | vobj fields =>
    cases h : lookupField fields "message" with
    | some w =>
      exact Or.inr (Or.inr (Or.inl ⟨fields, w, rfl, h, by simp [getErrorMessage, h]⟩))
    | none =>
      exact Or.inr (Or.inr (Or.inr (by simp [getErrorMessage, h])))
  | verror name msg => exact Or.inl ⟨name, msg, rfl, rfl⟩
  | vstr s => exact Or.inr (Or.inl ⟨s, rfl, rfl⟩)
  | vnull => exact Or.inr (Or.inr (Or.inr rfl))
  | vundefined => exact Or.inr (Or.inr (Or.inr rfl))
  | vbool b => exact Or.inr (Or.inr (Or.inr rfl))
  | vnum n => exact Or.inr (Or.inr (Or.inr rfl))

/-- C7: deleting a watchlist category removes only the category row:
only categories matching the deleted `(id, user)` disappear, every
watchlist item is kept (the item list keeps its length and positions),
an item that referenced the deleted category gets `category_id = none`
with its other fields unchanged, and an item that did not is entirely
unchanged. -/
theorem deleteCategory_nullifies_refs (cats : List CategoryRow)
    (items : List WatchlistRow) (categoryId userId : String)
    (i : Nat) (hi : i < items.length) :
    (∀ c, c ∈ (deleteCategory cats items categoryId userId).1 ↔
        c ∈ cats ∧ ¬(c.id = categoryId ∧ c.user_id = userId)) ∧
    (deleteCategory cats items categoryId userId).2.length = items.length ∧
    ∃ hj : i < (deleteCategory cats items categoryId userId).2.length,
      ((deleteCategory cats items categoryId userId).2.get ⟨i, hj⟩).user_id =
        (items.get ⟨i, hi⟩).user_id ∧
      ((deleteCategory cats items categoryId userId).2.get ⟨i, hj⟩).movie_id =
        (items.get ⟨i, hi⟩).movie_id ∧
      ((∃ c ∈ cats, c.id = categoryId ∧ c.user_id = userId ∧
          (items.get ⟨i, hi⟩).category_id = some c.id) →
        ((deleteCategory cats items categoryId userId).2.get ⟨i, hj⟩).category_id
          = none) ∧
      (¬(∃ c ∈ cats, c.id = categoryId ∧ c.user_id = userId ∧
          (items.get ⟨i, hi⟩).category_id = some c.id) →
        (deleteCategory cats items categoryId userId).2.get ⟨i, hj⟩ =
          items.get ⟨i, hi⟩) := by
  refine ⟨?_, ?_, ?_⟩
  · intro c
    simp only [deleteCategory, List.mem_filter, Bool.not_eq_true',
      Bool.and_eq_false_imp, beq_iff_eq]
    constructor
    · rintro ⟨hc, h⟩
      refine ⟨hc, ?_⟩
      rintro ⟨h1, h2⟩
      simp [h1, h2] at h
    · rintro ⟨hc, h⟩
      refine ⟨hc, ?_⟩
      by_cases h1 : c.id = categoryId
      · by_cases h2 : c.user_id = userId
        · exact absurd ⟨h1, h2⟩ h
        · simp [h1, h2]
      · simp [h1]
  · simp [deleteCategory]
  · have hlen : (deleteCategory cats items categoryId userId).2.length
        = items.length := by
      simp [deleteCategory]
    have hj : i < (deleteCategory cats items categoryId userId).2.length := by
      omega
    refine ⟨hj, ?_⟩
    simp only [List.get_eq_getElem]
    have hget : (deleteCategory cats items categoryId userId).2[i] =
        nullifyCategoryRef cats categoryId userId items[i] := by
      simp only [deleteCategory, List.getElem_map]
    rw [hget]
    cases hcat : items[i].category_id with
    | none =>
      simp [nullifyCategoryRef, hcat]
    | some cid =>
      simp only [nullifyCategoryRef, hcat]
      have hiff : (cats.any (fun c => (c.id == categoryId && c.user_id == userId)
            && c.id == cid) = true) ↔
          (∃ c ∈ cats, c.id = categoryId ∧ c.user_id = userId ∧
            some cid = some c.id) := by
        simp only [List.any_eq_true, Bool.and_eq_true, beq_iff_eq,
          Option.some.injEq]
        constructor
        · rintro ⟨c, hc, ⟨h1, h2⟩, h3⟩
          exact ⟨c, hc, h1, h2, h3.symm⟩
        · rintro ⟨c, hc, h1, h2, h3⟩
          exact ⟨c, hc, ⟨h1, h2⟩, h3.symm⟩
      by_cases hc : cats.any (fun c => (c.id == categoryId && c.user_id == userId)
          && c.id == cid) = true
      · rw [if_pos hc]
        refine ⟨rfl, rfl, fun _ => rfl, fun hn => absurd (hiff.mp hc) hn⟩
      · rw [if_neg (by simpa using hc)]
        refine ⟨rfl, rfl, fun hex => absurd (hiff.mpr hex) hc, fun _ => rfl⟩

/-- C7 witness: deleting category "c1" of user "u" keeps both watchlist
items, nullifies the reference of the item that pointed at "c1", and
leaves the other item untouched. -/
theorem deleteCategory_nullifies_refs_witness :
    (∀ c, c ∈ (deleteCategory [⟨"c1", "u", "n", "col"⟩]
        [⟨"u", 1, some "c1"⟩, ⟨"u", 2, none⟩] "c1" "u").1 ↔
        c ∈ [(⟨"c1", "u", "n", "col"⟩ : CategoryRow)] ∧
          ¬(c.id = "c1" ∧ c.user_id = "u")) ∧
    (deleteCategory [⟨"c1", "u", "n", "col"⟩]
        [⟨"u", 1, some "c1"⟩, ⟨"u", 2, none⟩] "c1" "u").2.length =
      ([⟨"u", 1, some "c1"⟩, ⟨"u", 2, none⟩] : List WatchlistRow).length ∧
    ∃ hj : 0 < (deleteCategory [⟨"c1", "u", "n", "col"⟩]
        [⟨"u", 1, some "c1"⟩, ⟨"u", 2, none⟩] "c1" "u").2.length,
      ((deleteCategory [⟨"c1", "u", "n", "col"⟩]
          [⟨"u", 1, some "c1"⟩, ⟨"u", 2, none⟩] "c1" "u").2.get
            ⟨0, hj⟩).user_id =
        (([⟨"u", 1, some "c1"⟩, ⟨"u", 2, none⟩] : List WatchlistRow).get
            ⟨0, by norm_num⟩).user_id ∧
      ((deleteCategory [⟨"c1", "u", "n", "col"⟩]
          [⟨"u", 1, some "c1"⟩, ⟨"u", 2, none⟩] "c1" "u").2.get
            ⟨0, hj⟩).movie_id =
        (([⟨"u", 1, some "c1"⟩, ⟨"u", 2, none⟩] : List WatchlistRow).get
            ⟨0, by norm_num⟩).movie_id ∧
      ((∃ c ∈ [(⟨"c1", "u", "n", "col"⟩ : CategoryRow)],
          c.id = "c1" ∧ c.user_id = "u" ∧
          (([⟨"u", 1, some "c1"⟩, ⟨"u", 2, none⟩] : List WatchlistRow).get
              ⟨0, by norm_num⟩).category_id = some c.id) →
        ((deleteCategory [⟨"c1", "u", "n", "col"⟩]
            [⟨"u", 1, some "c1"⟩, ⟨"u", 2, none⟩] "c1" "u").2.get
              ⟨0, hj⟩).category_id = none) ∧
      (¬(∃ c ∈ [(⟨"c1", "u", "n", "col"⟩ : CategoryRow)],
          c.id = "c1" ∧ c.user_id = "u" ∧
          (([⟨"u", 1, some "c1"⟩, ⟨"u", 2, none⟩] : List WatchlistRow).get
              ⟨0, by norm_num⟩).category_id = some c.id) →
        (deleteCategory [⟨"c1", "u", "n", "col"⟩]
            [⟨"u", 1, some "c1"⟩, ⟨"u", 2, none⟩] "c1" "u").2.get ⟨0, hj⟩ =
          ([⟨"u", 1, some "c1"⟩, ⟨"u", 2, none⟩] : List WatchlistRow).get
            ⟨0, by norm_num⟩) :=
  deleteCategory_nullifies_refs [⟨"c1", "u", "n", "col"⟩]
    [⟨"u", 1, some "c1"⟩, ⟨"u", 2, none⟩] "c1" "u" 0 (by norm_num)

end OnAir
